import Mathlib

set_option maxHeartbeats 1000000

/-!
Shallow embedding of `docs/game.js` (WebSnake): a single-player Snake game.

The mutable module-level variables (`snake`, `direction`, `pendingDirection`,
`food`, `running`, `score`, `intervalId`) become fields of a `GameState`
record.  The tick-timer handle `intervalId` is abstracted to the boolean
`timerActive` (`setInterval` sets it, `clearInterval` clears it).

`Math.random`-driven sampling in `randomEmptyPosition` is modelled by an
explicit list of sampled cells: the JS `while (true)` loop returns the first
sample not occupied by the snake, and returns `none` (nontermination) when the
provided samples are exhausted.

JavaScript `%` is the truncating remainder, modelled by `Int.tmod`.
-/

/-- A grid cell `[x, y]`, a pair of JS numbers restricted to integers here. -/
abbrev Cell := Int × Int

/-- `const BOARD_WIDTH = 40`. -/
def BOARD_WIDTH : Int := 40

/-- `const BOARD_HEIGHT = 30`. -/
def BOARD_HEIGHT : Int := 30

/-- The module-level game state of `game.js`. -/
structure GameState where
  snake : List Cell
  direction : Cell
  pendingDirection : Option Cell
  food : Option Cell
  running : Bool
  score : Nat
  timerActive : Bool
  deriving DecidableEq

/-- `randomEmptyPosition()`: repeatedly sample a random cell until one is not
occupied by the snake; `samples` is the stream of sampled cells, `none` models
the loop never returning. -/
def randomEmptyPosition (samples : List Cell) (snake : List Cell) : Option Cell :=
  samples.find? (fun c => decide (c ∉ snake))

/-- `startGame()` (state-relevant part): build the initial 3-segment snake in
the middle of the board, reset direction, place food, set score to the snake
length, set running and start the ticker.  Returns `none` when initial food
placement does not terminate on the given samples. -/
def startGame (samples : List Cell) : Option GameState :=
  let startX : Int := BOARD_WIDTH / 2
  let startY : Int := BOARD_HEIGHT / 2
  let snake0 : List Cell := [(startX, startY), (startX - 1, startY), (startX - 2, startY)]
  match randomEmptyPosition samples snake0 with
  | none => none
  | some f =>
      some { snake := snake0
             direction := (1, 0)
             pendingDirection := none
             food := some f
             running := true
             score := snake0.length
             timerActive := true }

/-- The key-to-direction `map` in `handleKeyDown`, applied to an
already-lowercased key string; unrecognized keys give `none`. -/
def keyMap (key : String) : Option Cell :=
  if key = "arrowup" ∨ key = "w" then some (0, -1)
  else if key = "arrowdown" ∨ key = "s" then some (0, 1)
  else if key = "arrowleft" ∨ key = "a" then some (-1, 0)
  else if key = "arrowright" ∨ key = "d" then some (1, 0)
  else none

/-- `e.key.toLowerCase()`, modelled as per-character lowercasing (the
recognized key names are all ASCII, where the two agree). -/
def jsToLower (s : String) : String :=
  String.mk (s.data.map Char.toLower)

/-- `handleKeyDown(e)`: lowercase the key, look it up, and queue the mapped
direction as pending unless it is the exact negation of the active
direction. -/
def handleKeyDown (key : String) (s : GameState) : GameState :=
  match keyMap (jsToLower key) with
  | none => s
  | some newDir =>
      if newDir.1 ≠ -s.direction.1 ∨ newDir.2 ≠ -s.direction.2 then
        { s with pendingDirection := some newDir }
      else s

/-- The direction the next tick will move in: the pending direction if one is
queued, otherwise the active direction. -/
def effDir (s : GameState) : Cell :=
  s.pendingDirection.getD s.direction

/-- Wraparound coordinate arithmetic `(coord + delta + bound) % bound`, with
`%` the JS truncating remainder (`Int.tmod`). -/
def wrap (coord delta bound : Int) : Int :=
  Int.tmod (coord + delta + bound) bound

/-- The new head cell a tick would compute from the current state
(`none` when the snake is empty and `snake[0]` is undefined). -/
def nextHead (s : GameState) : Option Cell :=
  match s.snake with
  | [] => none
  | head :: _ =>
      some (wrap head.1 (effDir s).1 BOARD_WIDTH, wrap head.2 (effDir s).2 BOARD_HEIGHT)

/-- `endGame()` (state-relevant part): stop running and clear the tick
interval; snake, food and score are left as they are. -/
def endGame (s : GameState) : GameState :=
  { s with running := false, timerActive := false }

/-- `new (window.AudioContext || window.webkitAudioContext)()` and the oscillator
setup inside `playBeep`'s `try` block: succeeds when audio is available,
throws otherwise. -/
def newAudioContext (audioAvailable : Bool) : Except String Unit :=
  if audioAvailable then Except.ok () else Except.error "AudioContext unavailable"

/-- `playBeep()`: try to emit one tone; any failure is caught by the
`try/catch` and silently discarded.  The result counts the tones actually
emitted (0 or 1) and is `Except.ok` whenever the catch swallows the error. -/
def playBeep (audioAvailable : Bool) : Except String Nat :=
  match newAudioContext audioAvailable with
  | Except.ok _ => Except.ok 1
  | Except.error _ => Except.ok 0

/-- The observable ways a call to `tick()` can end: return normally with the
new state and the number of tones emitted, loop forever inside food
placement, or let an exception escape. -/
inductive TickOutcome where
  | ok : GameState → Nat → TickOutcome
  | diverges : TickOutcome
  | thrown : String → TickOutcome
  deriving DecidableEq

/-- The game state a tick outcome leaves behind, when it returns at all. -/
def TickOutcome.finalState : TickOutcome → Option GameState
  | .ok s _ => some s
  | .diverges => none
  | .thrown _ => none

/-- `tick()`: one simulation step.  Consume the pending direction, compute the
wrapped new head, end the game on self-collision, otherwise prepend the head
and either grow (feeding: score, beep, new food) or pop the tail. -/
def tick (samples : List Cell) (audioAvailable : Bool) (s : GameState) : TickOutcome :=
  if s.running = false then .ok s 0
  else
    let dir := effDir s
    let s1 : GameState := { s with direction := dir, pendingDirection := none }
    match s.snake with
    | [] => .thrown "TypeError: snake has no head"
    | head :: _ =>
        let newHead : Cell := (wrap head.1 dir.1 BOARD_WIDTH, wrap head.2 dir.2 BOARD_HEIGHT)
        if newHead ∈ s.snake then
          .ok (endGame s1) 0
        else
          let grown : List Cell := newHead :: s.snake
          if s.food = some newHead then
            match playBeep audioAvailable with
            | Except.error e => .thrown e
            | Except.ok beeps =>
                match randomEmptyPosition samples grown with
                | none => .diverges
                | some f =>
                    .ok { s1 with snake := grown, food := some f, score := s.score + 1 } beeps
          else
            .ok { s1 with snake := grown.dropLast } 0

/-- Game states reachable from a game start through ticks and key presses. -/
inductive Reachable : GameState → Prop where
  | start : ∀ (samples : List Cell) (gs : GameState),
      startGame samples = some gs → Reachable gs
  | step : ∀ (s : GameState) (samples : List Cell) (a : Bool) (s' : GameState) (n : Nat),
      Reachable s → tick samples a s = .ok s' n → Reachable s'
  | key : ∀ (s : GameState) (k : String), Reachable s → Reachable (handleKeyDown k s)

def idleState : GameState :=
  { snake := [(20, 15), (19, 15), (18, 15)], direction := (1, 0), pendingDirection := none,
    food := some (5, 5), running := false, score := 3, timerActive := false }

def keyState : GameState :=
  { snake := [(20, 15), (19, 15), (18, 15)], direction := (1, 0), pendingDirection := some (0, 1),
    food := some (5, 5), running := true, score := 3, timerActive := true }

def edgeState : GameState :=
  { snake := [(39, 15)], direction := (1, 0), pendingDirection := none,
    food := some (5, 5), running := true, score := 1, timerActive := true }

def collideState : GameState :=
  { snake := [(20, 15), (21, 15)], direction := (1, 0), pendingDirection := none,
    food := some (5, 5), running := true, score := 2, timerActive := true }

def runState : GameState :=
  { snake := [(20, 15), (19, 15), (18, 15)], direction := (1, 0), pendingDirection := none,
    food := some (5, 5), running := true, score := 3, timerActive := true }

def feedState : GameState :=
  { snake := [(20, 15), (19, 15), (18, 15)], direction := (1, 0), pendingDirection := none,
    food := some (21, 15), running := true, score := 3, timerActive := true }

def feedResult : GameState :=
  { snake := [(21, 15), (20, 15), (19, 15), (18, 15)], direction := (1, 0),
    pendingDirection := none, food := some (0, 0), running := true, score := 4,
    timerActive := true }

def startedState : GameState :=
  { snake := [(20, 15), (19, 15), (18, 15)], direction := (1, 0), pendingDirection := none,
    food := some (0, 0), running := true, score := 3, timerActive := true }

/-! Helper lemmas shared by the claim theorems below. -/

theorem playBeep_ok (audio : Bool) :
    playBeep audio = Except.ok (if audio then 1 else 0) := by
  cases audio <;> rfl

theorem randomEmptyPosition_spec (samples occ : List Cell) (c : Cell)
    (h : randomEmptyPosition samples occ = some c) :
    c ∈ samples ∧ c ∉ occ := by
  refine ⟨List.mem_of_find?_eq_some h, ?_⟩
  have hp := List.find?_some h
  exact of_decide_eq_true hp

theorem wrap_eq_emod (coord delta bound : Int) (h : 0 ≤ coord + delta + bound)
    (hb : 0 ≤ bound) : wrap coord delta bound = (coord + delta + bound) % bound :=
  Int.tmod_eq_emod h hb

theorem handleKeyDown_keeps_snake_score (key : String) (s : GameState) :
    (handleKeyDown key s).snake = s.snake ∧ (handleKeyDown key s).score = s.score := by
  cases hk : keyMap (jsToLower key) with
  | none => simp [handleKeyDown, hk]
  | some d =>
    by_cases hc : d.1 ≠ -s.direction.1 ∨ d.2 ≠ -s.direction.2
    · simp [handleKeyDown, hk, hc]
    · simp [handleKeyDown, hk, hc]

theorem tick_ok_score_length (samples : List Cell) (audio : Bool) (s s' : GameState) (n : Nat)
    (htick : tick samples audio s = TickOutcome.ok s' n)
    (hinv : s.score = s.snake.length) : s'.score = s'.snake.length := by
  rw [tick] at htick
  by_cases hrun : s.running = false
  · rw [if_pos hrun] at htick
    cases htick
    exact hinv
  · rw [if_neg hrun] at htick
    cases hsn : s.snake with
    | nil =>
      simp only [hsn] at htick
      cases htick
    | cons head rest =>
      simp only [hsn] at htick
      rw [hsn] at hinv
      by_cases hcol :
          ((wrap head.1 (effDir s).1 BOARD_WIDTH, wrap head.2 (effDir s).2 BOARD_HEIGHT) : Cell)
            ∈ head :: rest
      · rw [if_pos hcol] at htick
        cases htick
        exact hinv
      · rw [if_neg hcol] at htick
        by_cases hfood : s.food =
            some (wrap head.1 (effDir s).1 BOARD_WIDTH, wrap head.2 (effDir s).2 BOARD_HEIGHT)
        · rw [if_pos hfood, playBeep_ok] at htick
          simp only [] at htick
          cases hre : randomEmptyPosition samples
              ((wrap head.1 (effDir s).1 BOARD_WIDTH, wrap head.2 (effDir s).2 BOARD_HEIGHT)
                :: head :: rest) with
          | none => rw [hre] at htick; cases htick
          | some f =>
            rw [hre] at htick
            cases htick
            simp only [List.length_cons]
            rw [hinv]
            simp
        · rw [if_neg hfood] at htick
          cases htick
          simp only [List.length_dropLast, List.length_cons]
          rw [hinv]
          simp

/-! Claim theorems and their witnesses. -/

/-- Claim C1: on any tick where the newly computed head cell lies on the current snake
body (tail included), the session ends: `running` becomes false, the tick timer is
stopped, and snake, food and score are exactly as they were just before the step. -/
theorem tick_self_collision_ends (samples : List Cell) (audio : Bool) (s : GameState)
    (nh : Cell) (hrun : s.running = true) (hnh : nextHead s = some nh) (hcol : nh ∈ s.snake) :
    ∃ s', tick samples audio s = TickOutcome.ok s' 0 ∧
      s'.running = false ∧ s'.timerActive = false ∧
      s'.snake = s.snake ∧ s'.food = s.food ∧ s'.score = s.score := by
  cases hsn : s.snake with
  | nil => rw [nextHead, hsn] at hnh; simp at hnh
  | cons head rest =>
    rw [nextHead, hsn] at hnh
    simp only [Option.some.injEq] at hnh
    rw [hsn] at hcol
    refine ⟨endGame { s with direction := effDir s, pendingDirection := none },
      ?_, rfl, rfl, hsn, rfl, rfl⟩
    rw [tick]
    simp only [hrun, hsn, hnh, Bool.true_eq_false, if_false]
    rw [if_pos hcol]

theorem tick_self_collision_ends_witness :
    collideState.running = true ∧ nextHead collideState = some (21, 15) ∧
    ((21, 15) : Cell) ∈ collideState.snake ∧
    ∃ s', tick [] true collideState = TickOutcome.ok s' 0 ∧
      s'.running = false ∧ s'.timerActive = false ∧
      s'.snake = collideState.snake ∧ s'.food = collideState.food ∧
      s'.score = collideState.score :=
  ⟨rfl, by decide, by decide,
    tick_self_collision_ends [] true collideState (21, 15) rfl (by decide) (by decide)⟩

/-- Claim C2: on any non-colliding tick whose new head equals the food cell, the snake
grows by one (new head prepended, no tail removed), the score increases by exactly 1,
and the newly placed food cell is not a member of the grown snake. -/
theorem tick_feeding_grows (samples : List Cell) (audio : Bool) (s s' : GameState)
    (nh : Cell) (n : Nat)
    (hrun : s.running = true) (hnh : nextHead s = some nh)
    (hncol : nh ∉ s.snake) (hfood : s.food = some nh)
    (htick : tick samples audio s = TickOutcome.ok s' n) :
    s'.snake = nh :: s.snake ∧
    s'.snake.length = s.snake.length + 1 ∧
    s'.score = s.score + 1 ∧
    ∃ f, s'.food = some f ∧ f ∉ s'.snake := by
  cases hsn : s.snake with
  | nil => rw [nextHead, hsn] at hnh; simp at hnh
  | cons head rest =>
    rw [nextHead, hsn] at hnh
    simp only [Option.some.injEq] at hnh
    rw [hsn] at hncol
    rw [tick] at htick
    simp only [hrun, hsn, hnh, Bool.true_eq_false, if_false] at htick
    rw [if_neg hncol, if_pos hfood, playBeep_ok] at htick
    simp only [] at htick
    cases hre : randomEmptyPosition samples (nh :: head :: rest) with
    | none => rw [hre] at htick; cases htick
    | some f =>
      rw [hre] at htick
      have hf := randomEmptyPosition_spec samples (nh :: head :: rest) f hre
      cases htick
      refine ⟨rfl, by simp, rfl, f, rfl, ?_⟩
      exact hf.2

theorem tick_feeding_grows_witness :
    feedState.running = true ∧ nextHead feedState = some (21, 15) ∧
    ((21, 15) : Cell) ∉ feedState.snake ∧ feedState.food = some (21, 15) ∧
    tick [(0, 0)] true feedState = TickOutcome.ok feedResult 1 ∧
    (feedResult.snake = (21, 15) :: feedState.snake ∧
     feedResult.snake.length = feedState.snake.length + 1 ∧
     feedResult.score = feedState.score + 1 ∧
     ∃ f, feedResult.food = some f ∧ f ∉ feedResult.snake) :=
  ⟨rfl, by decide, by decide, rfl, by decide,
    tick_feeding_grows [(0, 0)] true feedState feedResult (21, 15) 1 rfl (by decide)
      (by decide) rfl (by decide)⟩

/-- Claim C3: on any tick whose new head neither hits the body nor the food, the snake
keeps its length: the new head is prepended at index 0 and the old tail dropped (body
shifts by one), while food and score are unchanged. -/
theorem tick_normal_step (samples : List Cell) (audio : Bool) (s : GameState) (nh : Cell)
    (hrun : s.running = true) (hnh : nextHead s = some nh)
    (hncol : nh ∉ s.snake) (hnf : s.food ≠ some nh) :
    ∃ s', tick samples audio s = TickOutcome.ok s' 0 ∧
      s'.snake = nh :: s.snake.dropLast ∧
      s'.snake.length = s.snake.length ∧
      s'.food = s.food ∧ s'.score = s.score ∧ s'.running = true := by
  cases hsn : s.snake with
  | nil => rw [nextHead, hsn] at hnh; simp at hnh
  | cons head rest =>
    rw [nextHead, hsn] at hnh
    simp only [Option.some.injEq] at hnh
    rw [hsn] at hncol
    refine ⟨{ s with
        direction := effDir s
        pendingDirection := none
        snake := (nh :: head :: rest).dropLast }, ?_, ?_, ?_, rfl, rfl, hrun⟩
    · rw [tick]
      simp only [hrun, hsn, hnh, Bool.true_eq_false, if_false]
      rw [if_neg hncol, if_neg hnf]
    · simp [List.dropLast_cons₂]
    · simp [List.length_dropLast]

theorem tick_normal_step_witness :
    runState.running = true ∧ nextHead runState = some (21, 15) ∧
    ((21, 15) : Cell) ∉ runState.snake ∧ runState.food ≠ some (21, 15) ∧
    ∃ s', tick [] true runState = TickOutcome.ok s' 0 ∧
      s'.snake = (21, 15) :: runState.snake.dropLast ∧
      s'.snake.length = runState.snake.length ∧
      s'.food = runState.food ∧ s'.score = runState.score ∧ s'.running = true :=
  ⟨rfl, by decide, by decide, by decide,
    tick_normal_step [] true runState (21, 15) rfl (by decide) (by decide) (by decide)⟩

/-- Claim C4: a recognized key whose direction vector is the exact componentwise
negation of the currently active direction leaves the state (in particular the pending
direction) unchanged; any other recognized key overwrites the pending direction, so the
reversal check is made against the active direction, never the queued one. -/
theorem handleKeyDown_reversal_rule (key : String) (s : GameState) (d : Cell)
    (hmap : keyMap (jsToLower key) = some d) :
    (d.1 = -s.direction.1 ∧ d.2 = -s.direction.2 → handleKeyDown key s = s) ∧
    (d.1 ≠ -s.direction.1 ∨ d.2 ≠ -s.direction.2 →
      handleKeyDown key s = { s with pendingDirection := some d }) := by
  constructor
  · rintro ⟨h1, h2⟩
    simp [handleKeyDown, hmap, h1, h2]
  · intro h
    rw [handleKeyDown, hmap]
    simp only [if_pos h]

theorem handleKeyDown_reversal_rule_witness :
    keyMap (jsToLower "A") = some ((-1 : Int), (0 : Int)) ∧
    ((-1 : Int) = -keyState.direction.1 ∧ (0 : Int) = -keyState.direction.2) ∧
    handleKeyDown "A" keyState = keyState :=
  ⟨by decide, by decide,
    (handleKeyDown_reversal_rule "A" keyState (-1, 0) (by decide)).1 (by decide)⟩

/-- Claim C5: for an in-range head cell and a unit direction vector, the tick computes
the new head as `((x + dx + WIDTH) % WIDTH, (y + dy + HEIGHT) % HEIGHT)`; in
particular each of the four board edges wraps around to the opposite edge. -/
theorem tick_newHead_wraparound (s : GameState) (head : Cell) (rest : List Cell)
    (hsn : s.snake = head :: rest)
    (hdir : effDir s = (0, -1) ∨ effDir s = (0, 1) ∨ effDir s = (-1, 0) ∨ effDir s = (1, 0))
    (hx0 : 0 ≤ head.1) (hx1 : head.1 < BOARD_WIDTH)
    (hy0 : 0 ≤ head.2) (hy1 : head.2 < BOARD_HEIGHT) :
    nextHead s = some ((head.1 + (effDir s).1 + BOARD_WIDTH) % BOARD_WIDTH,
                       (head.2 + (effDir s).2 + BOARD_HEIGHT) % BOARD_HEIGHT) ∧
    (head.1 = BOARD_WIDTH - 1 → effDir s = (1, 0) → nextHead s = some (0, head.2)) ∧
    (head.1 = 0 → effDir s = (-1, 0) → nextHead s = some (BOARD_WIDTH - 1, head.2)) ∧
    (head.2 = BOARD_HEIGHT - 1 → effDir s = (0, 1) → nextHead s = some (head.1, 0)) ∧
    (head.2 = 0 → effDir s = (0, -1) → nextHead s = some (head.1, BOARD_HEIGHT - 1)) := by
  have hW : BOARD_WIDTH = 40 := rfl
  have hH : BOARD_HEIGHT = 30 := rfl
  have hx : wrap head.1 (effDir s).1 BOARD_WIDTH
      = (head.1 + (effDir s).1 + BOARD_WIDTH) % BOARD_WIDTH := by
    apply wrap_eq_emod
    · rcases hdir with h | h | h | h <;> rw [h] <;> simp <;> omega
    · rw [hW]; omega
  have hy : wrap head.2 (effDir s).2 BOARD_HEIGHT
      = (head.2 + (effDir s).2 + BOARD_HEIGHT) % BOARD_HEIGHT := by
    apply wrap_eq_emod
    · rcases hdir with h | h | h | h <;> rw [h] <;> simp <;> omega
    · rw [hH]; omega
  have hmain : nextHead s = some ((head.1 + (effDir s).1 + BOARD_WIDTH) % BOARD_WIDTH,
      (head.2 + (effDir s).2 + BOARD_HEIGHT) % BOARD_HEIGHT) := by
    rw [nextHead, hsn]
    simp only [hx, hy]
  refine ⟨hmain, ?_, ?_, ?_, ?_⟩
  · intro he hd
    rw [hmain, hd, he, hW, hH]
    norm_num
    omega
  · intro he hd
    rw [hmain, hd, he, hW, hH]
    norm_num
    omega
  · intro he hd
    rw [hmain, hd, he, hW, hH]
    norm_num
    omega
  · intro he hd
    rw [hmain, hd, he, hW, hH]
    norm_num
    omega

theorem tick_newHead_wraparound_witness :
    edgeState.snake = ((39 : Int), (15 : Int)) :: [] ∧
    effDir edgeState = (1, 0) ∧ (39 : Int) = BOARD_WIDTH - 1 ∧
    nextHead edgeState = some (0, 15) :=
  ⟨rfl, rfl, by decide,
    (tick_newHead_wraparound edgeState (39, 15) [] rfl (by decide) (by decide) (by decide)
      (by decide) (by decide)).2.1 (by decide) rfl⟩

/-- Claim C6: whenever a game start completes, the snake is the three centered cells
facing +x, the direction is `(1, 0)`, no direction is pending, the food is placed on a
cell off the snake, the score equals the initial snake length 3, and the game is
running with the ticker started. -/
theorem startGame_initializes (samples : List Cell) (gs : GameState)
    (h : startGame samples = some gs) :
    gs.snake = [(20, 15), (19, 15), (18, 15)] ∧
    gs.direction = (1, 0) ∧ gs.pendingDirection = none ∧
    (∃ f, gs.food = some f ∧ f ∉ gs.snake) ∧
    gs.score = 3 ∧ gs.score = gs.snake.length ∧
    gs.running = true ∧ gs.timerActive = true := by
  simp only [startGame] at h
  split at h
  · cases h
  · next f heq =>
    cases h
    refine ⟨by norm_num [BOARD_WIDTH, BOARD_HEIGHT], rfl, rfl, ⟨f, rfl, ?_⟩, rfl, rfl, rfl, rfl⟩
    exact (randomEmptyPosition_spec _ _ _ heq).2

theorem startGame_initializes_witness :
    startGame [(0, 0)] = some startedState ∧
    (startedState.snake = [(20, 15), (19, 15), (18, 15)] ∧
     startedState.direction = (1, 0) ∧ startedState.pendingDirection = none ∧
     (∃ f, startedState.food = some f ∧ f ∉ startedState.snake) ∧
     startedState.score = 3 ∧ startedState.score = startedState.snake.length ∧
     startedState.running = true ∧ startedState.timerActive = true) :=
  ⟨by decide, startGame_initializes [(0, 0)] startedState (by decide)⟩

/-- Claim C7: whenever food placement returns a cell, and every sampled cell lies on
the 40 by 30 grid, the returned cell lies on the grid and does not equal any cell of
the occupied set handed to it. -/
theorem randomEmptyPosition_in_grid (samples occ : List Cell) (c : Cell)
    (hin : ∀ x ∈ samples, 0 ≤ x.1 ∧ x.1 < BOARD_WIDTH ∧ 0 ≤ x.2 ∧ x.2 < BOARD_HEIGHT)
    (h : randomEmptyPosition samples occ = some c) :
    (0 ≤ c.1 ∧ c.1 < BOARD_WIDTH ∧ 0 ≤ c.2 ∧ c.2 < BOARD_HEIGHT) ∧ c ∉ occ := by
  obtain ⟨hmem, hocc⟩ := randomEmptyPosition_spec samples occ c h
  exact ⟨hin c hmem, hocc⟩

theorem randomEmptyPosition_in_grid_witness :
    (∀ x ∈ ([(5, 5)] : List Cell), 0 ≤ x.1 ∧ x.1 < BOARD_WIDTH ∧ 0 ≤ x.2 ∧ x.2 < BOARD_HEIGHT) ∧
    randomEmptyPosition [(5, 5)] [(1, 1)] = some (5, 5) ∧
    ((0 : Int) ≤ (5 : Int) ∧ (5 : Int) < BOARD_WIDTH ∧ (0 : Int) ≤ (5 : Int) ∧ (5 : Int) < BOARD_HEIGHT) ∧
      ((5, 5) : Cell) ∉ ([(1, 1)] : List Cell) :=
  ⟨by decide, by decide, randomEmptyPosition_in_grid [(5, 5)] [(1, 1)] (5, 5) (by decide) (by decide)⟩

/-- Claim C8: tone generation always returns without an exception (the try/catch
swallows any audio failure), the game state produced by a tick is identical whether or
not audio is available, and no exception escapes a tick with a nonempty snake. -/
theorem playBeep_failure_is_silent :
    (∀ audio : Bool, ∃ tones : Nat, playBeep audio = Except.ok tones) ∧
    (∀ (samples : List Cell) (a b : Bool) (s : GameState),
      (tick samples a s).finalState = (tick samples b s).finalState) ∧
    (∀ (samples : List Cell) (audio : Bool) (s : GameState) (e : String),
      s.snake = [] ∨ tick samples audio s ≠ TickOutcome.thrown e) := by
  refine ⟨?_, ?_, ?_⟩
  · intro audio
    cases audio
    · exact ⟨0, rfl⟩
    · exact ⟨1, rfl⟩
  · intro samples a b s
    rw [tick, tick]
    split
    · rfl
    · cases hsn : s.snake with
      | nil => rfl
      | cons head rest =>
        simp only []
        split
        · rfl
        · split
          · rw [playBeep_ok, playBeep_ok]
            simp only []
            split
            · rfl
            · rfl
          · rfl
  · intro samples audio s e
    cases hsn : s.snake with
    | nil => exact Or.inl rfl
    | cons head rest =>
      refine Or.inr (fun hcontra => ?_)
      rw [tick] at hcontra
      simp only [hsn] at hcontra
      split at hcontra
      · cases hcontra
      · split at hcontra
        · cases hcontra
        · split at hcontra
          · rw [playBeep_ok] at hcontra
            simp only [] at hcontra
            split at hcontra
            · cases hcontra
            · cases hcontra
          · cases hcontra

/-- Claim C9: in every reachable game state the score equals the snake length: a game
start sets the score to the initial snake length, and every tick either increments
both by one (feeding) or changes neither (non-feeding or collision). -/
theorem reachable_score_eq_length (s : GameState) (h : Reachable s) :
    s.score = s.snake.length := by
  induction h with
  | start samples gs hgs =>
    simp only [startGame] at hgs
    split at hgs
    · cases hgs
    · cases hgs
      rfl
  | step s samples a s' n hr htick ih =>
    exact tick_ok_score_length samples a s s' n htick ih
  | key s k hr ih =>
    obtain ⟨h1, h2⟩ := handleKeyDown_keeps_snake_score k s
    rw [h1, h2]
    exact ih

theorem reachable_score_eq_length_witness :
    startedState.score = startedState.snake.length :=
  reachable_score_eq_length startedState (Reachable.start [(0, 0)] startedState (by decide))

/-- Claim C10: when the game is not running, a tick returns the whole game state
completely unchanged and emits no tone. -/
theorem tick_not_running_is_noop (samples : List Cell) (audio : Bool) (s : GameState)
    (h : s.running = false) :
    tick samples audio s = TickOutcome.ok s 0 := by
  simp [tick, h]

theorem tick_not_running_is_noop_witness :
    idleState.running = false ∧ tick [] true idleState = TickOutcome.ok idleState 0 :=
  ⟨rfl, tick_not_running_is_noop [] true idleState rfl⟩
